import Mathlib

/-!
Verification of the signal-bus / scheduler core of the cognitive-architecture
repository (files `src/core/signal-bus.ts`, `src/core/state.ts`,
`src/core/engine.ts`, `src/core/cognitive-loop.ts`, `src/core/thought-bridge.ts`,
`src/core/constants.ts`).

The TypeScript code is shallowly embedded:
* machine numbers that are only compared/added (`priority`, `timestamp`, `ttl`)
  become `Int`; the self-state scalars (exact arithmetic with the literal
  constants `0.35`, `0.001`, ...) become `ℚ`;
* `Date.now()` / `performance.now()` become an explicit `now : Int` argument;
* `Math.sin(Date.now() / 8000) * 0.002` (the "breathing" term of
  `SelfStateManager.update`) becomes an explicit parameter `b : ℚ`; the real
  term always satisfies `|b| ≤ 1/500` because `|sin| ≤ 1`;
* a subscriber handler's only bus-visible effect in this code base is calling
  `emit`, so a handler is embedded as `Signal → List EmitReq`, the (possibly
  signal-dependent) list of emit calls it performs;
* signal payloads are opaque to the bus and are modelled by an atom (`Nat`);
* the `while (queue.length > 0)` drain loop of `flush` is given explicit fuel;
  `FlushResult.completed` records that the loop exited because the queue was
  empty (which is what always happens in the real code when the loop
  terminates), not because fuel ran out.
-/

namespace AliveCore

/-! ## Constants (`src/core/constants.ts`) -/

def SIGNAL_TTL : Int := 10000

def SIGNAL_HISTORY_SIZE : Nat := 200

def STATE_DAMPING : ℚ := 35/100

/-! ## Signals and the bus (`src/core/types.ts`, `src/core/signal-bus.ts`) -/

/-- A fully formed signal envelope (`interface Signal`).  `sid` models the
process-unique id produced by `createSignalId` (the numeric counter part);
`starget = none` is a broadcast, `some ts` the `EngineId | EngineId[]` target
normalised to a list; `payload` is opaque to the bus and modelled by an atom. -/
structure Signal where
  sid : Nat
  stype : String
  source : String
  starget : Option (List String)
  payload : Nat
  priority : Int
  timestamp : Int
  ttl : Int
deriving DecidableEq, Repr

/-- The argument of `SignalBus.emit`: a signal without `id`/`timestamp`/`ttl`
plus optional overrides for those three fields. -/
structure EmitReq where
  stype : String
  source : String
  starget : Option (List String)
  payload : Nat
  priority : Int
  reqId : Option Nat
  reqTimestamp : Option Int
  reqTtl : Option Int
deriving DecidableEq, Repr

/-- A bus subscription (`interface Subscription`).  The handler is embedded as
the list of `emit` calls it performs when invoked on a signal (the only
bus-visible effect a handler has in this code base). -/
structure Subscription where
  subId : String
  engineId : String
  signalTypes : Option (List String)
  handler : Signal → List EmitReq

/-- The private state of a `SignalBus` instance, together with the module-level
`signalCounter` (`nextId`) used by `createSignalId`. -/
structure BusState where
  queue : List Signal
  subs : List Subscription
  history : List Signal
  historyIndex : Nat
  nextId : Nat

/-- `emit`'s sorted insertion: `queue.findIndex(s => s.priority < full.priority)`
followed by `splice(idx, 0, full)` (append when no index is found) inserts the
new signal right before the first queued signal of strictly lower priority. -/
def insertByPriority (x : Signal) : List Signal → List Signal
  | [] => [x]
  | y :: ys => if y.priority < x.priority then x :: y :: ys else y :: insertByPriority x ys

/-- The full signal built at the top of `SignalBus.emit` (`const full: Signal`),
with `id`, `timestamp` and `ttl` defaulted when absent. -/
def fullSignal (now : Int) (nid : Nat) (r : EmitReq) : Signal :=
  { sid := r.reqId.getD nid
    stype := r.stype
    source := r.source
    starget := r.starget
    payload := r.payload
    priority := r.priority
    timestamp := r.reqTimestamp.getD now
    ttl := r.reqTtl.getD SIGNAL_TTL }

/-- `createSignalId` advances the counter only when `emit` had to mint an id. -/
def nextIdAfter (nid : Nat) (r : EmitReq) : Nat :=
  if r.reqId.isNone then nid + 1 else nid

/-- `SignalBus.emit`: build the full signal, insert it into the pending queue by
descending priority, return it.  No delivery happens here. -/
def emit (now : Int) (r : EmitReq) (st : BusState) : BusState × Signal :=
  let full := fullSignal now st.nextId r
  ({ st with queue := insertByPriority full st.queue, nextId := nextIdAfter st.nextId r }, full)

/-- A convenience fold of `emit` over a list of requests. -/
def emitAll (now : Int) (reqs : List EmitReq) (st : BusState) : BusState :=
  reqs.foldl (fun acc r => (emit now r acc).1) st

/-- The fully formed signals produced by `emitAll`, in emission order. -/
def emittedSignals (now : Int) : Nat → List EmitReq → List Signal
  | _, [] => []
  | nid, r :: rs => fullSignal now nid r :: emittedSignals now (nextIdAfter nid r) rs

/-- The ring-buffer insertion performed by `flush` for each processed signal:
push while below capacity, otherwise overwrite the slot at `historyIndex` and
advance it modulo the capacity. -/
def pushHistory (st : BusState) (s : Signal) : BusState :=
  if st.history.length < SIGNAL_HISTORY_SIZE then
    { st with history := st.history ++ [s] }
  else
    { st with history := st.history.set st.historyIndex s,
              historyIndex := (st.historyIndex + 1) % SIGNAL_HISTORY_SIZE }

/-- The two `continue` filters of the delivery loop in `flush`: a targeted
signal is skipped for subscribers whose engine id is not among the targets, and
a subscriber with a type filter is skipped when the type does not match. -/
def matchesSub (sub : Subscription) (s : Signal) : Bool :=
  (match s.starget with
   | none => true
   | some ts => ts.contains sub.engineId) &&
  (match sub.signalTypes with
   | none => true
   | some types => types.contains s.stype)

/-- Deliver one popped signal to the live subscriber list in order, invoking
each matching handler; the handler's `emit` calls are applied to the bus state
immediately (they insert into the live pending queue).  Returns the updated
state and the `(engineId, signal)` delivery log of this signal. -/
def deliverToSubs (now : Int) (s : Signal) : List Subscription → BusState → BusState × List (String × Signal)
  | [], st => (st, [])
  | sub :: rest, st =>
    if matchesSub sub s then
      ((deliverToSubs now s rest ((sub.handler s).foldl (fun acc r => (emit now r acc).1) st)).1,
       (sub.engineId, s) ::
         (deliverToSubs now s rest ((sub.handler s).foldl (fun acc r => (emit now r acc).1) st)).2)
    else
      deliverToSubs now s rest st

/-- Result of a `flush` call: the final bus state, the `processed` list the
method returns, the delivery log, and whether the drain loop exited because the
queue was empty (`completed`, always true in the source when `flush` returns). -/
structure FlushResult where
  state : BusState
  processed : List Signal
  deliveries : List (String × Signal)
  completed : Bool

/-- The `while (this.queue.length > 0)` drain loop of `flush`: pop the head,
append it to `processed`, record it in the ring-buffer history, then deliver it
to the subscribers (whose handlers may insert new signals into the live
queue). -/
def flushLoop (now : Int) : Nat → BusState → List Signal → List (String × Signal) → FlushResult
  | fuel, st, accP, accD =>
    match st.queue with
    | [] => ⟨st, accP.reverse, accD.reverse, true⟩
    | s :: rest =>
      match fuel with
      | 0 => ⟨st, accP.reverse, accD.reverse, false⟩
      | fuel' + 1 =>
        flushLoop now fuel'
          (deliverToSubs now s st.subs (pushHistory { st with queue := rest } s)).1
          (s :: accP)
          ((deliverToSubs now s st.subs (pushHistory { st with queue := rest } s)).2.reverse ++ accD)

/-- `SignalBus.flush`: first drop every pending signal whose age reached its
ttl (`queue.filter(s => now - s.timestamp < s.ttl)`), then drain the queue. -/
def flush (now : Int) (fuel : Nat) (st : BusState) : FlushResult :=
  flushLoop now fuel
    { st with queue := st.queue.filter (fun s => now - s.timestamp < s.ttl) } [] []

/-- `SignalBus.getHistory`: below capacity the backing array is already
oldest-first; at capacity the slot at `historyIndex` is the oldest entry, so the
array is rotated to start there. -/
def getHistory (st : BusState) : List Signal :=
  if st.history.length < SIGNAL_HISTORY_SIZE then st.history
  else st.history.drop st.historyIndex ++ st.history.take st.historyIndex

/-- An initially empty bus with a given subscriber list. -/
def mkBus (subs : List Subscription) : BusState :=
  { queue := [], subs := subs, history := [], historyIndex := 0, nextId := 0 }

/-! ## Self state (`src/core/state.ts`, `interface SelfState` in `types.ts`) -/

/-- The six mood dimensions.  Per the interface comments, `valence` ranges over
[-1, 1] and every other dimension over [0, 1]. -/
structure SelfState where
  valence : ℚ
  arousal : ℚ
  confidence : ℚ
  energy : ℚ
  social : ℚ
  curiosity : ℚ
deriving DecidableEq, Repr

/-- `SelfStateDimension = keyof SelfState`. -/
inductive Dim
  | valence
  | arousal
  | confidence
  | energy
  | social
  | curiosity
deriving DecidableEq, Repr

def SelfState.get (s : SelfState) : Dim → ℚ
  | .valence => s.valence
  | .arousal => s.arousal
  | .confidence => s.confidence
  | .energy => s.energy
  | .social => s.social
  | .curiosity => s.curiosity

def SelfState.setDim (s : SelfState) : Dim → ℚ → SelfState
  | .valence, v => { s with valence := v }
  | .arousal, v => { s with arousal := v }
  | .confidence, v => { s with confidence := v }
  | .energy, v => { s with energy := v }
  | .social, v => { s with social := v }
  | .curiosity, v => { s with curiosity := v }

/-- `SELF_STATE_DEFAULTS` from `constants.ts`. -/
def SELF_STATE_DEFAULTS : SelfState :=
  { valence := 6/10, arousal := 3/10, confidence := 5/10,
    energy := 7/10, social := 4/10, curiosity := 6/10 }

/-- `clamp(value, min, max) = Math.max(min, Math.min(max, value))`. -/
def clampQ (v lo hi : ℚ) : ℚ := max lo (min hi v)

/-- The lower bound used by `nudge`/`setTarget`:
`dimension === 'valence' ? -1 : 0`. -/
def dimMin : Dim → ℚ
  | .valence => -1
  | _ => 0

/-- The mutable fields of `SelfStateManager` relevant to the state claims:
the damped `current` vector and the `target` vector. -/
structure MState where
  current : SelfState
  target : SelfState
deriving DecidableEq, Repr

/-- The constructor pair: `current = defaults`, `target = copy of current`. -/
def initMState : MState := ⟨SELF_STATE_DEFAULTS, SELF_STATE_DEFAULTS⟩

/-- `SelfStateManager.nudge`: clamp `target[dim] + delta` into the dimension's
interval and write it into `target` only. -/
def nudge (st : MState) (d : Dim) (delta : ℚ) : MState :=
  { st with target := st.target.setDim d (clampQ (st.target.get d + delta) (dimMin d) 1) }

/-- `SelfStateManager.setTarget`: clamp the absolute value into the interval. -/
def setTarget (st : MState) (d : Dim) (v : ℚ) : MState :=
  { st with target := st.target.setDim d (clampQ v (dimMin d) 1) }

/-- `SelfStateManager.applyShift`: `nudge` once per present key. -/
def applyShift (st : MState) (shift : List (Dim × ℚ)) : MState :=
  shift.foldl (fun acc p => nudge acc p.1 p.2) st

/-- One dimension of the lerp loop in `update`:
`if (Math.abs(diff) > 0.001) current[dim] += diff * STATE_DAMPING`. -/
def lerpDim (c t : ℚ) : ℚ :=
  if 1/1000 < |t - c| then c + (t - c) * STATE_DAMPING else c

/-- The per-dimension lerp pass of `update` (it iterates all six dimensions). -/
def updateCurrent (c t : SelfState) : SelfState :=
  { valence := lerpDim c.valence t.valence
    arousal := lerpDim c.arousal t.arousal
    confidence := lerpDim c.confidence t.confidence
    energy := lerpDim c.energy t.energy
    social := lerpDim c.social t.social
    curiosity := lerpDim c.curiosity t.curiosity }

/-- The homeostatic tail of `update`, run after the lerp pass.  `b` stands for
the value of `Math.sin(Date.now() / 8000) * 0.002` at that call, so the real
code always supplies some `b` with `|b| ≤ 1/500`:
`target.arousal += (0.3 - target.arousal) * 0.001 + b`;
`target.social += (0.4 - target.social) * 0.001`;
`target.energy = Math.max(0, target.energy - 0.0001)`. -/
def updateTarget (b : ℚ) (t : SelfState) : SelfState :=
  { t with arousal := t.arousal + (3/10 - t.arousal) * (1/1000) + b
           social := t.social + (4/10 - t.social) * (1/1000)
           energy := max 0 (t.energy - 1/10000) }

/-- The `changed` flag computed by the lerp loop of `update`. -/
def updChanged (c t : SelfState) : Bool :=
  decide (1/1000 < |t.valence - c.valence|) || decide (1/1000 < |t.arousal - c.arousal|) ||
  decide (1/1000 < |t.confidence - c.confidence|) || decide (1/1000 < |t.energy - c.energy|) ||
  decide (1/1000 < |t.social - c.social|) || decide (1/1000 < |t.curiosity - c.curiosity|)

/-- `SelfStateManager.update`: lerp `current` toward `target`, then apply the
homeostatic drift to `target`; returns whether any dimension moved. -/
def update (b : ℚ) (st : MState) : MState × Bool :=
  (⟨updateCurrent st.current st.target, updateTarget b st.target⟩,
   updChanged st.current st.target)

/-- The externally callable mutators of `SelfStateManager` quantified over by
the state claims.  The `update` constructor carries the breathing-term value
`b` of that call (see `updateTarget`). -/
inductive Op
  | nudge (d : Dim) (delta : ℚ)
  | setTarget (d : Dim) (v : ℚ)
  | applyShift (shift : List (Dim × ℚ))
  | update (b : ℚ)

def runOp (st : MState) : Op → MState
  | .nudge d x => nudge st d x
  | .setTarget d v => setTarget st d v
  | .applyShift sh => applyShift st sh
  | .update b => (update b st).1

def runOps (st : MState) (ops : List Op) : MState :=
  ops.foldl runOp st

/-! ## Engines and the scheduler loop (`src/core/engine.ts`,
`src/core/cognitive-loop.ts`) -/

inductive EngineStatus
  | idle
  | processing
  | waiting
  | error
deriving DecidableEq, Repr

/-- The subclass-supplied behaviour of an engine, abstracted to what the
per-engine tick wrapper can observe: whether `process(signals)` throws (and
with which message, via `String(e)`), and whether `onIdle()` throws.  A
non-throwing `onIdle` behaves like the base-class default, which sets the
status to `idle`. -/
structure EngAct where
  processExc : List Signal → Option String
  onIdleExc : Option String

/-- The mutable per-engine fields of the abstract `Engine` base class. -/
structure EngineSt where
  eid : String
  tickInterval : Int
  status : EngineStatus
  lastTick : Int
  tickCount : Nat
  signalsProcessed : Nat
  debugInfo : Option String
  inbox : List Signal
  act : EngAct

/-- `Engine.tick(now)`.  The second component is the exception that escapes
`tick`, if any: an exception from `process` is caught inside `tick` (status set
to `error`, debug string recorded, nothing propagates), while `onIdle` is NOT
wrapped in the `try`/`catch` and its exception propagates to the caller with
the engine's earlier field mutations retained. -/
def tick (now : Int) (e : EngineSt) : EngineSt × Option String :=
  if now - e.lastTick < e.tickInterval then (e, none)
  else
    let e1 := { e with lastTick := now, tickCount := e.tickCount + 1 }
    if e1.inbox.length > 0 then
      let signals := e1.inbox
      let e2 := { e1 with status := .processing, inbox := [],
                          signalsProcessed := e1.signalsProcessed + signals.length }
      match e2.act.processExc signals with
      | none => (e2, none)
      | some msg => ({ e2 with status := .error, debugInfo := some msg }, none)
    else
      match e1.act.onIdleExc with
      | none => ({ e1 with status := .idle }, none)
      | some msg => (e1, some msg)

/-- Step 1 of `CognitiveLoop.loop`:
`for (const engine of this.engines.values()) engine.tick(now);`.
The `for` statement is not wrapped in a `try`/`catch`, so an exception escaping
one engine's `tick` aborts the iteration: the remaining engines are returned
untouched and the exception propagates. -/
def tickAll (now : Int) : List EngineSt → List EngineSt × Option String
  | [] => ([], none)
  | e :: rest =>
    match tick now e with
    | (e1, some msg) => (e1 :: rest, some msg)
    | (e1, none) =>
      ((e1 :: (tickAll now rest).1), (tickAll now rest).2)

/-- The scheduler state the frame claims are about: the engine registry (in
registration order, as iterated by the `Map`) and the owned bus. -/
structure LoopSt where
  engines : List EngineSt
  bus : BusState

structure FrameResult where
  state : LoopSt
  flushRan : Bool
  exc : Option String

/-- The engine-and-bus portion of one `CognitiveLoop.loop` frame: tick every
engine, then `flush` the bus.  An exception escaping a `tick` aborts the frame
before `flush` (steps 2-5 of the loop body never run).  The self-state update,
drive evaluation and snapshot rebuild of steps 3-5 touch neither the engine
registry nor the delivery semantics and are omitted here. -/
def frame (now : Int) (fuel : Nat) (st : LoopSt) : FrameResult :=
  match tickAll now st.engines with
  | (es, some msg) => ⟨⟨es, st.bus⟩, false, some msg⟩
  | (es, none) => ⟨⟨es, (flush now fuel st.bus).state⟩, true, none⟩

/-! ## ThoughtBridge (`src/core/thought-bridge.ts`) -/

/-- An entry of the bridge's `conversationHistory` (`role` is `"user"` or
`"assistant"`). -/
structure ConvEntry where
  role : String
  content : String
deriving DecidableEq, Repr

/-- The mutable fields of a `ThoughtBridge`.  `subscribed` records whether the
bridge's bus subscription is still registered (`destroy` removes it). -/
structure BridgeSt where
  processing : Bool
  lastProcessedContent : String
  lastProcessedTime : Int
  conversationHistory : List ConvEntry
  subscribed : Bool
deriving DecidableEq, Repr

/-- The synchronous prefix of `ThoughtBridge.handleThought`, up to and
including issuing the `fetch('/api/mind/think', ...)` call: the single-flight
check (`if (this.processing) return`), the 5-second same-content
deduplication, marking busy, and pushing the user message (capped to the last
40 entries).  The boolean is `true` iff the outbound external call was
issued. -/
def handleThoughtStart (now : Int) (content : String) (st : BridgeSt) : BridgeSt × Bool :=
  if st.processing then (st, false)
  else if content = st.lastProcessedContent ∧ now - st.lastProcessedTime < 5000 then (st, false)
  else
    let st1 := { st with lastProcessedContent := content, lastProcessedTime := now,
                         processing := true }
    let h := st1.conversationHistory ++ [⟨"user", content⟩]
    let h1 := if 40 < h.length then h.drop (h.length - 40) else h
    ({ st1 with conversationHistory := h1 }, true)

/-- The `claude-response` emit request built by `handleThought`'s continuation
(both on success and on the error path): source `arbiter`, targeted at
`[arbiter, growth]`, priority `SIGNAL_PRIORITIES.HIGH = 75`.  The payload is
opaque to the bus and modelled by an atom. -/
def claudeResponseReq : EmitReq :=
  { stype := "claude-response", source := "arbiter",
    starget := some ["arbiter", "growth"], payload := 0, priority := 75,
    reqId := none, reqTimestamp := none, reqTtl := none }

/-- The continuation of `handleThought` that runs when the awaited external
call resolves: on success, push the assistant message and emit a
`claude-response` signal; on failure, emit the fallback `claude-response`
signal; in both cases `finally { this.processing = false }`.  Nothing on this
path consults `subscribed` or any other liveness flag. -/
def handleThoughtResolve (res : Except String String) (st : BridgeSt) : BridgeSt × Option EmitReq :=
  match res with
  | .ok text =>
    ({ st with conversationHistory := st.conversationHistory ++ [⟨"assistant", text⟩],
               processing := false },
     some claudeResponseReq)
  | .error _ =>
    ({ st with processing := false }, some claudeResponseReq)

/-- `ThoughtBridge.destroy`: `bus.unsubscribe(this.subscriptionId)` (and the
module-level active-instance bookkeeping, which holds no bridge state). -/
def destroyBridge (st : BridgeSt) : BridgeSt :=
  { st with subscribed := false }

/-! ## Derived notions and concrete scenarios used by the theorems -/

/-- Subscribers none of whose handlers call `emit`. -/
def SilentSubs (subs : List Subscription) : Prop :=
  ∀ sub ∈ subs, ∀ s, sub.handler s = []

/-- Emit a batch of requests into a fresh bus and flush once, with exactly the
fuel the drain loop needs when no handler re-emits. -/
def emitThenFlush (now : Int) (subs : List Subscription) (reqs : List EmitReq) : FlushResult :=
  flush now (emitAll now reqs (mkBus subs)).queue.length (emitAll now reqs (mkBus subs))

/-- The scalar recurrence that `update` applies to the `current` value of a
dimension whose target it never drifts: `n` damped steps toward the fixed
target `t`. -/
def iterLerp (t : ℚ) : Nat → ℚ → ℚ
  | 0, c => c
  | n + 1, c => lerpDim (iterLerp t n c) t

/- C1 scenario: a subscriber that re-emits a `pong` when handed a `ping`, and a
second subscriber listening for `pong`. -/

def pingReq : EmitReq :=
  { stype := "ping", source := "e1", starget := none, payload := 0,
    priority := 50, reqId := none, reqTimestamp := none, reqTtl := none }

def pongReq : EmitReq :=
  { stype := "pong", source := "e2", starget := none, payload := 0,
    priority := 50, reqId := none, reqTimestamp := none, reqTtl := none }

def reemitSub : Subscription :=
  { subId := "sub1", engineId := "e2", signalTypes := some ["ping"],
    handler := fun s => if s.stype = "ping" then [pongReq] else [] }

def listenSub : Subscription :=
  { subId := "sub2", engineId := "e3", signalTypes := some ["pong"],
    handler := fun _ => [] }

/-- The C1 bus: `ping` emitted and pending, both subscribers live. -/
def c1bus : BusState := (emit 0 pingReq (mkBus [reemitSub, listenSub])).1

/- C3 example: emit (p=10,"a"), (p=50,"b"), (p=10,"c"). -/

def reqA : EmitReq :=
  { stype := "a", source := "e1", starget := none, payload := 0,
    priority := 10, reqId := none, reqTimestamp := none, reqTtl := none }

def reqB : EmitReq :=
  { stype := "b", source := "e1", starget := none, payload := 0,
    priority := 50, reqId := none, reqTimestamp := none, reqTtl := none }

def reqC : EmitReq :=
  { stype := "c", source := "e1", starget := none, payload := 0,
    priority := 10, reqId := none, reqTimestamp := none, reqTtl := none }

/- C4 scenario: a signal emitted with `ttl = 100` at time 0, flushed at time
150, with an interested broadcast subscriber live. -/

def expiredSig : Signal :=
  { sid := 0, stype := "text-input", source := "text-input", starget := none,
    payload := 0, priority := 75, timestamp := 0, ttl := 100 }

def quietSub : Subscription :=
  { subId := "sub3", engineId := "attention", signalTypes := none,
    handler := fun _ => [] }

def c4bus : BusState :=
  { queue := [expiredSig], subs := [quietSub], history := [], historyIndex := 0, nextId := 1 }

/- C5 scenario: 205 equal-priority signals emitted and flushed once, five more
than the ring capacity `SIGNAL_HISTORY_SIZE = 200`. -/

def c5req (i : Nat) : EmitReq :=
  { stype := "s", source := "e1", starget := none, payload := i,
    priority := 50, reqId := none, reqTimestamp := none, reqTtl := none }

def c5reqs : List EmitReq := (List.range 205).map c5req

def c5flush : FlushResult := emitThenFlush 0 [] c5reqs

/- C6/C10 scenario engines. -/

def sigX : Signal :=
  { sid := 0, stype := "text-input", source := "text-input", starget := none,
    payload := 0, priority := 75, timestamp := 0, ttl := 10000 }

/-- An engine whose `process` always throws. -/
def engBoom : EngineSt :=
  { eid := "perception", tickInterval := 10, status := .idle, lastTick := 0,
    tickCount := 0, signalsProcessed := 0, debugInfo := none, inbox := [sigX],
    act := ⟨fun _ => some "boom", none⟩ }

/-- A healthy engine with an empty inbox. -/
def engOk : EngineSt :=
  { eid := "attention", tickInterval := 10, status := .idle, lastTick := 0,
    tickCount := 0, signalsProcessed := 0, debugInfo := none, inbox := [],
    act := ⟨fun _ => none, none⟩ }

/-- An engine whose `onIdle` throws. -/
def engIdleBoom : EngineSt :=
  { eid := "default-mode", tickInterval := 10, status := .waiting, lastTick := 0,
    tickCount := 0, signalsProcessed := 0, debugInfo := none, inbox := [],
    act := ⟨fun _ => none, some "idle-boom"⟩ }

/- C7 scenario: a state with the social target 0.0015 above current (all other
dimensions at rest), advanced by `update` calls with a zero breathing term (the
breathing term only touches arousal, not social). -/

def c7cross : MState :=
  { current := { SELF_STATE_DEFAULTS with social := 59/100 },
    target := { SELF_STATE_DEFAULTS with social := 59/100 + 3/2000 } }

/-- A start state for the damped-convergence witness: default current, valence
target at -9/10 (gap 3/2). -/
def c7start : MState :=
  { current := SELF_STATE_DEFAULTS,
    target := { SELF_STATE_DEFAULTS with valence := -9/10 } }

/- C9 scenario: a bridge with a call in flight. -/

def c9bridge : BridgeSt :=
  { processing := true, lastProcessedContent := "q", lastProcessedTime := 0,
    conversationHistory := [⟨"user", "q"⟩], subscribed := true }

/-! # Theorems -/

/-! ## C1 — same-flush delivery of handler emissions -/

/-- Unfolding lemma: the drain loop stops on an empty queue. -/
theorem flushLoop_nil (now : Int) (fuel : Nat) (st : BusState)
    (accP : List Signal) (accD : List (String × Signal)) (hq : st.queue = []) :
    flushLoop now fuel st accP accD = ⟨st, accP.reverse, accD.reverse, true⟩ := by
  conv_lhs => unfold flushLoop
  rw [hq]

/-- Unfolding lemma: the drain loop runs out of fuel on a nonempty queue. -/
theorem flushLoop_zero_cons (now : Int) (st : BusState)
    (accP : List Signal) (accD : List (String × Signal)) (s : Signal) (rest : List Signal)
    (hq : st.queue = s :: rest) :
    flushLoop now 0 st accP accD = ⟨st, accP.reverse, accD.reverse, false⟩ := by
  conv_lhs => unfold flushLoop
  rw [hq]

/-- Unfolding lemma: one iteration of the drain loop. -/
theorem flushLoop_succ_cons (now : Int) (n : Nat) (st : BusState)
    (accP : List Signal) (accD : List (String × Signal)) (s : Signal) (rest : List Signal)
    (hq : st.queue = s :: rest) :
    flushLoop now (n + 1) st accP accD =
      flushLoop now n
        (deliverToSubs now s st.subs (pushHistory { st with queue := rest } s)).1
        (s :: accP)
        ((deliverToSubs now s st.subs (pushHistory { st with queue := rest } s)).2.reverse ++ accD) := by
  conv_lhs => unfold flushLoop
  rw [hq]

/-- The drain loop of `flush` only returns `completed` with an empty pending
queue: whatever was inserted into the live queue during the flush has been
popped (and hence processed) by the time the loop exits. -/
theorem flushLoop_completed_queue (now : Int) (fuel : Nat) :
    ∀ (st : BusState) (accP : List Signal) (accD : List (String × Signal)),
      (flushLoop now fuel st accP accD).completed = true →
      (flushLoop now fuel st accP accD).state.queue = [] := by
  induction fuel with
  | zero =>
    intro st accP accD h
    cases hq : st.queue with
    | nil => rw [flushLoop_nil now 0 st accP accD hq]; exact hq
    | cons s rest =>
      rw [flushLoop_zero_cons now st accP accD s rest hq] at h
      simp at h
  | succ n ih =>
    intro st accP accD h
    cases hq : st.queue with
    | nil => rw [flushLoop_nil now (n + 1) st accP accD hq]; exact hq
    | cons s rest =>
      rw [flushLoop_succ_cons now n st accP accD s rest hq] at h ⊢
      exact ih _ _ _ h

/-- C1: the spec claims a signal emitted by a subscriber handler during its own
invocation inside `flush` is not delivered in the same flush pass and is only
delivered by the next `flush` call.  The code refutes this: the drain loop is
`while (queue.length > 0)` over the live queue, so the `pong` emitted by the
`ping` handler is popped, processed and delivered (to the `pong` listener) in
the same `flush` call, and the pending queue left for the next flush is
empty. -/
theorem c1_counterexample :
    (flush 0 5 c1bus).processed.map (fun s => s.stype) = ["ping", "pong"] ∧
    (flush 0 5 c1bus).deliveries.map (fun d => (d.1, d.2.stype)) =
      [("e2", "ping"), ("e3", "pong")] ∧
    (flush 0 5 c1bus).state.queue = [] := by
  decide

/-- C1 (amended): a signal emitted by a subscriber handler during `flush` IS
drained in the same flush pass: whenever the drain loop of `flush` terminates
(`completed`), the final pending queue is empty, so nothing emitted during the
flush waits for the next call; in the concrete handler-re-emission scenario the
re-emitted signal appears in the same call's processed list. -/
theorem c1_amended :
    (∀ (now : Int) (fuel : Nat) (st : BusState),
        (flush now fuel st).completed = true → (flush now fuel st).state.queue = []) ∧
    (flush 0 5 c1bus).processed.map (fun s => s.stype) = ["ping", "pong"] ∧
    (flush 0 5 c1bus).completed = true := by
  refine ⟨?_, by decide, by decide⟩
  intro now fuel st h
  unfold flush at h ⊢
  exact flushLoop_completed_queue now fuel _ [] [] h

/-- Witness for `c1_amended` at the concrete C1 bus. -/
theorem c1_amended_witness : (flush 0 5 c1bus).state.queue = [] :=
  c1_amended.1 0 5 c1bus (by decide)

/-! ## C2 — self-state interval invariant -/

/-- C2: the claim states that `target` and `current` stay inside every
dimension's declared interval under any `nudge`/`setTarget`/`applyShift`/
`update` sequence.  The code breaks it: `update`'s homeostatic tail
`target.arousal += (0.3 - target.arousal) * 0.001 + Math.sin(now/8000) * 0.002`
is unclamped, so from `setTarget('arousal', 1)` a single `update` at a time
where the breathing term is `0.0019` (well inside its attainable range
`|b| ≤ 0.002`) leaves `target.arousal = 1.0012 > 1`, contradicting the claim
and the field's own documented range `0 (calm) to 1 (excited)`. -/
theorem c2_arousal_escapes :
    1 < (runOps initMState [Op.setTarget .arousal 1, Op.update (19/10000)]).target.arousal ∧
    |(19/10000 : ℚ)| ≤ 1/500 := by
  constructor
  · norm_num [runOps, runOp, setTarget, update, updateTarget, updateCurrent, lerpDim, clampQ,
      initMState, SELF_STATE_DEFAULTS, SelfState.setDim, SelfState.get, dimMin, STATE_DAMPING]
  · rw [abs_of_nonneg (by norm_num)]
    norm_num

/-! ## C8 — single-flight bridge -/

/-- If the synchronous prefix of `handleThought` issued the outbound call, the
resulting bridge state is marked busy. -/
theorem handleThoughtStart_snd_processing (now : Int) (content : String) (st : BridgeSt) :
    (handleThoughtStart now content st).2 = true →
    (handleThoughtStart now content st).1.processing = true := by
  unfold handleThoughtStart
  split_ifs <;> simp

/-- `if (this.processing) return;`: a busy bridge drops the request with no
state change and no outbound call. -/
theorem handleThoughtStart_busy (now : Int) (content : String) (st : BridgeSt)
    (h : st.processing = true) :
    handleThoughtStart now content st = (st, false) := by
  unfold handleThoughtStart
  simp [h]

/-- C8: while a call is in flight (`processing` set), handling another
`thought` signal is a silent drop — `handleThought` returns at once with no
outbound call and the bridge state (conversation history, dedup fields)
unchanged; consequently two requests arriving before the first resolves
produce at most one outbound external call, whatever the initial state. -/
theorem c8_single_flight (st : BridgeSt) (now1 now2 : Int) (c1 c2 : String) :
    handleThoughtStart now1 c1 { st with processing := true } =
      ({ st with processing := true }, false) ∧
    ((if (handleThoughtStart now1 c1 st).2 then 1 else 0) : Nat) +
      (if (handleThoughtStart now2 c2 (handleThoughtStart now1 c1 st).1).2 then 1 else 0) ≤ 1 := by
  constructor
  · exact handleThoughtStart_busy now1 c1 { st with processing := true } rfl
  · by_cases h1 : (handleThoughtStart now1 c1 st).2 = true
    · have hp := handleThoughtStart_snd_processing now1 c1 st h1
      rw [handleThoughtStart_busy now2 c2 _ hp]
      simp [h1]
    · simp only [Bool.not_eq_true] at h1
      cases h2 : (handleThoughtStart now2 c2 (handleThoughtStart now1 c1 st).1).2 <;>
        simp [h1, h2]

/-! ## C9 — post-destroy resolution -/

/-- C9: the spec claims that after `destroy()` a late resolution of the
in-flight call is swallowed and no result signal is emitted.  The code
refutes this at a concrete destroyed bridge: the continuation after the await
emits the `claude-response` request unconditionally — nothing on that path
consults a liveness flag. -/
theorem c9_counterexample :
    (destroyBridge c9bridge).subscribed = false ∧
    (handleThoughtResolve (Except.ok "an answer") (destroyBridge c9bridge)).2 =
      some claudeResponseReq := by
  exact ⟨rfl, rfl⟩

/-- C9 (amended): after `destroy()` (which only removes the bridge's inbound
`thought` subscription), the later resolution of an in-flight call — success or
failure — still emits exactly one `claude-response` result signal onto the bus;
there is no liveness check on the resolve path. -/
theorem c9_amended (st : BridgeSt) (res : Except String String) :
    (destroyBridge st).subscribed = false ∧
    (handleThoughtResolve res (destroyBridge st)).2 = some claudeResponseReq := by
  refine ⟨rfl, ?_⟩
  cases res <;> rfl

/-! ## C6 / C10 — engine tick error handling -/

/-- A due tick of an engine with a nonempty inbox whose `process` throws:
the exception is caught inside `tick` (nothing propagates), the status becomes
`error` and the debug string records the exception. -/
theorem tick_process_throws (now : Int) (e : EngineSt) (msg : String)
    (hdue : e.tickInterval ≤ now - e.lastTick) (hinbox : e.inbox ≠ [])
    (hthrow : e.act.processExc e.inbox = some msg) :
    tick now e =
      ({ e with lastTick := now, tickCount := e.tickCount + 1, status := .error,
                inbox := [], signalsProcessed := e.signalsProcessed + e.inbox.length,
                debugInfo := some msg }, none) := by
  unfold tick
  rw [if_neg (by omega)]
  have hlen : 0 < e.inbox.length := List.length_pos.mpr hinbox
  simp only [if_pos hlen, hthrow]

/-- A due tick of an engine with an empty inbox whose `onIdle` throws: `tick`
is left through the uncaught exception, with only the bookkeeping mutations
made before `onIdle` ran (in particular the status is untouched). -/
theorem tick_onidle_throws (now : Int) (e : EngineSt) (msg : String)
    (hdue : e.tickInterval ≤ now - e.lastTick) (hempty : e.inbox = [])
    (hthrow : e.act.onIdleExc = some msg) :
    tick now e = ({ e with lastTick := now, tickCount := e.tickCount + 1 }, some msg) := by
  unfold tick
  rw [if_neg (by omega)]
  simp only [hempty, List.length_nil, lt_irrefl, if_neg, hthrow]
  simp

/-- Every due tick advances `tickCount`, whatever `process`/`onIdle` do: an
erroring engine keeps being ticked on schedule. -/
theorem tick_due_tickCount (now : Int) (e : EngineSt)
    (hdue : e.tickInterval ≤ now - e.lastTick) :
    (tick now e).1.tickCount = e.tickCount + 1 := by
  unfold tick
  rw [if_neg (by omega)]
  by_cases hi : 0 < e.inbox.length
  · simp only [if_pos hi]
    cases e.act.processExc e.inbox <;> rfl
  · simp only [if_neg hi]
    cases e.act.onIdleExc <;> rfl

/-- When no engine's tick lets an exception escape, the frame's tick pass
reaches every registered engine. -/
theorem tickAll_no_exc (now : Int) :
    ∀ (es : List EngineSt), (∀ f ∈ es, (tick now f).2 = none) →
      tickAll now es = (es.map (fun f => (tick now f).1), none) := by
  intro es
  induction es with
  | nil => intro _; rfl
  | cons e rest ih =>
    intro h
    have he : (tick now e).2 = none := h e (by simp)
    have hr := ih (fun f hf => h f (by simp [hf]))
    rcases ht : tick now e with ⟨e1, exc⟩
    rw [ht] at he
    simp only at he
    subst he
    simp [tickAll, ht, hr]

/-- C6: when an engine's `process` throws during a due tick, the exception is
caught inside `tick` (tick returns normally), the engine's status is set to
`error` with a debug string recorded, nothing propagates to the scheduler's
frame, the engine is not disabled — any later due tick advances its tick count
again — and the frame's tick pass still reaches every other registered
engine. -/
theorem c6_engine_error_isolated (now now2 : Int) (e : EngineSt) (msg : String)
    (pre post : List EngineSt)
    (hdue : e.tickInterval ≤ now - e.lastTick)
    (hinbox : e.inbox ≠ [])
    (hthrow : e.act.processExc e.inbox = some msg)
    (hdue2 : (tick now e).1.tickInterval ≤ now2 - (tick now e).1.lastTick)
    (hothers : ∀ f ∈ pre ++ post, (tick now f).2 = none) :
    (tick now e).2 = none ∧
    (tick now e).1.status = .error ∧
    (tick now e).1.debugInfo = some msg ∧
    (tick now2 (tick now e).1).1.tickCount = (tick now e).1.tickCount + 1 ∧
    tickAll now (pre ++ e :: post) =
      ((pre ++ e :: post).map (fun f => (tick now f).1), none) := by
  have ht := tick_process_throws now e msg hdue hinbox hthrow
  refine ⟨by rw [ht], by rw [ht], by rw [ht], tick_due_tickCount now2 _ hdue2, ?_⟩
  apply tickAll_no_exc
  intro f hf
  rcases List.mem_append.mp hf with hpre | hepost
  · exact hothers f (List.mem_append.mpr (Or.inl hpre))
  · rcases List.mem_cons.mp hepost with rfl | hpost
    · rw [ht]
    · exact hothers f (List.mem_append.mpr (Or.inr hpost))

/-- Witness for `c6_engine_error_isolated`: a throwing `perception` engine next
to a healthy `attention` engine, ticked at t=20 and again at t=40. -/
theorem c6_witness :
    (tick 20 engBoom).2 = none ∧
    (tick 20 engBoom).1.status = .error ∧
    (tick 20 engBoom).1.debugInfo = some "boom" ∧
    (tick 40 (tick 20 engBoom).1).1.tickCount = (tick 20 engBoom).1.tickCount + 1 ∧
    tickAll 20 ([] ++ engBoom :: [engOk]) =
      (([] ++ engBoom :: [engOk]).map (fun f => (tick 20 f).1), none) :=
  c6_engine_error_isolated 20 40 engBoom "boom" [] [engOk]
    (by decide) (by decide) (by decide) (by decide)
    (by
      intro f hf
      simp only [List.nil_append, List.mem_singleton] at hf
      subst hf
      decide)

/-- C10: `tick` catches only exceptions thrown by `process` — if a due tick
finds an empty inbox and `onIdle()` throws, the exception propagates out of
`tick` uncaught, the engine's status is NOT set to `error` (it is left
unchanged), and because `CognitiveLoop.loop` does not wrap `engine.tick` in a
try/catch the remaining engines of that frame are not ticked and the frame's
`flush` never runs. -/
theorem c10_onidle_uncaught (now : Int) (fuel : Nat) (e : EngineSt) (msg : String)
    (post : List EngineSt) (bus : BusState)
    (hdue : e.tickInterval ≤ now - e.lastTick)
    (hempty : e.inbox = [])
    (hthrow : e.act.onIdleExc = some msg) :
    (tick now e).2 = some msg ∧
    (tick now e).1.status = e.status ∧
    tickAll now (e :: post) = ((tick now e).1 :: post, some msg) ∧
    frame now fuel ⟨e :: post, bus⟩ = ⟨⟨(tick now e).1 :: post, bus⟩, false, some msg⟩ := by
  have ht := tick_onidle_throws now e msg hdue hempty hthrow
  have hta : tickAll now (e :: post) = ((tick now e).1 :: post, some msg) := by
    simp [tickAll, ht]
  refine ⟨by rw [ht], by rw [ht], hta, ?_⟩
  simp [frame, hta]

/-- Witness for `c10_onidle_uncaught`: an engine whose `onIdle` throws, in
front of a healthy engine that consequently never ticks this frame. -/
theorem c10_witness :
    (tick 20 engIdleBoom).2 = some "idle-boom" ∧
    (tick 20 engIdleBoom).1.status = engIdleBoom.status ∧
    tickAll 20 (engIdleBoom :: [engOk]) = ((tick 20 engIdleBoom).1 :: [engOk], some "idle-boom") ∧
    frame 20 0 ⟨engIdleBoom :: [engOk], mkBus []⟩ =
      ⟨⟨(tick 20 engIdleBoom).1 :: [engOk], mkBus []⟩, false, some "idle-boom"⟩ :=
  c10_onidle_uncaught 20 0 engIdleBoom "idle-boom" [engOk] (mkBus [])
    (by decide) (by decide) (by decide)

/-! ## C7 — damped convergence -/

/-- One damped step leaves a residual gap that is a nonnegative factor (13/20
or 1) of the previous gap: the step never crosses the target and never widens
the gap. -/
theorem lerpDim_factor (c t : ℚ) :
    ∃ k : ℚ, 0 ≤ k ∧ k ≤ 1 ∧ t - lerpDim c t = (t - c) * k := by
  unfold lerpDim
  split_ifs with h
  · exact ⟨13/20, by norm_num, by norm_num, by simp only [STATE_DAMPING]; ring⟩
  · exact ⟨1, by norm_num, by norm_num, by ring⟩

/-- One damped step does not increase the distance to the target. -/
theorem lerpDim_abs_le (c t : ℚ) : |t - lerpDim c t| ≤ |t - c| := by
  obtain ⟨k, hk0, hk1, hk⟩ := lerpDim_factor c t
  rw [hk, abs_mul, abs_of_nonneg hk0]
  calc |t - c| * k ≤ |t - c| * 1 := by
        exact mul_le_mul_of_nonneg_left hk1 (abs_nonneg _)
    _ = |t - c| := mul_one _

/-- Advancing the iteration one step from the front. -/
theorem iterLerp_succ_front (t c : ℚ) (n : Nat) :
    iterLerp t (n + 1) c = iterLerp t n (lerpDim c t) := by
  induction n with
  | zero => rfl
  | succ m ih =>
    show lerpDim (iterLerp t (m + 1) c) t = iterLerp t (m + 1) (lerpDim c t)
    rw [ih]
    rfl

/-- The residual gap after `n` damped steps is a nonnegative sub-unit factor
of the initial gap. -/
theorem iterLerp_factor (t c : ℚ) :
    ∀ n : Nat, ∃ k : ℚ, 0 ≤ k ∧ k ≤ 1 ∧ t - iterLerp t n c = (t - c) * k := by
  intro n
  induction n with
  | zero => exact ⟨1, by norm_num, by norm_num, by simp [iterLerp]⟩
  | succ m ih =>
    obtain ⟨k1, hk10, hk11, hk1⟩ := ih
    obtain ⟨k2, hk20, hk21, hk2⟩ := lerpDim_factor (iterLerp t m c) t
    refine ⟨k1 * k2, mul_nonneg hk10 hk20, ?_, ?_⟩
    · calc k1 * k2 ≤ 1 * 1 := mul_le_mul hk11 hk21 hk20 zero_le_one
        _ = 1 := one_mul 1
    · show t - lerpDim (iterLerp t m c) t = (t - c) * (k1 * k2)
      rw [hk2, hk1]
      ring

/-- The distance to the target is antitone in the number of damped steps. -/
theorem iterLerp_gap_anti (t c : ℚ) (n m : Nat) (hnm : n ≤ m) :
    |t - iterLerp t m c| ≤ |t - iterLerp t n c| := by
  induction m, hnm using Nat.le_induction with
  | base => exact le_refl _
  | succ m _hnm ih =>
    calc |t - iterLerp t (m + 1) c| = |t - lerpDim (iterLerp t m c) t| := rfl
      _ ≤ |t - iterLerp t m c| := lerpDim_abs_le _ _
      _ ≤ |t - iterLerp t n c| := ih

/-- After `n` damped steps the gap is either below the stopping threshold or
has shrunk geometrically. -/
theorem iterLerp_gap_bound (t c : ℚ) :
    ∀ n : Nat, |t - iterLerp t n c| ≤ 1/1000 ∨
      |t - iterLerp t n c| ≤ (13/20) ^ n * |t - c| := by
  intro n
  induction n with
  | zero => right; simp [iterLerp]
  | succ m ih =>
    by_cases hth : 1/1000 < |t - iterLerp t m c|
    · rcases ih with hsmall | hgeo
      · exact absurd hth (not_lt.mpr hsmall)
      · right
        have hstep : t - iterLerp t (m + 1) c = (t - iterLerp t m c) * (13/20) := by
          show t - lerpDim (iterLerp t m c) t = _
          unfold lerpDim
          rw [if_pos hth]
          simp only [STATE_DAMPING]
          ring
        rw [hstep, abs_mul, abs_of_nonneg (by norm_num : (0:ℚ) ≤ 13/20)]
        calc |t - iterLerp t m c| * (13/20)
            ≤ ((13/20) ^ m * |t - c|) * (13/20) := by
              exact mul_le_mul_of_nonneg_right hgeo (by norm_num)
          _ = (13/20) ^ (m + 1) * |t - c| := by ring
    · left
      have hstep : iterLerp t (m + 1) c = iterLerp t m c := by
        show lerpDim (iterLerp t m c) t = _
        unfold lerpDim
        rw [if_neg hth]
      rw [hstep]
      exact not_lt.mp hth

/-- For the dimensions whose target `update` never drifts, `update` acts on
`target`/`current` exactly as the fixed-target scalar recurrence. -/
theorem update_get_stable (b : ℚ) (st : MState) (d : Dim)
    (hd : d = .valence ∨ d = .confidence ∨ d = .curiosity) :
    (update b st).1.target.get d = st.target.get d ∧
    (update b st).1.current.get d = lerpDim (st.current.get d) (st.target.get d) := by
  rcases hd with rfl | rfl | rfl <;> exact ⟨rfl, rfl⟩

/-- Folding `update` over any list of breathing values leaves a stable
dimension's target fixed and iterates the scalar recurrence on its current
value. -/
theorem runOps_update_get_stable (d : Dim)
    (hd : d = .valence ∨ d = .confidence ∨ d = .curiosity) :
    ∀ (bs : List ℚ) (st : MState),
      (runOps st (bs.map Op.update)).target.get d = st.target.get d ∧
      (runOps st (bs.map Op.update)).current.get d =
        iterLerp (st.target.get d) bs.length (st.current.get d) := by
  intro bs
  induction bs with
  | nil => intro st; exact ⟨rfl, rfl⟩
  | cons b rest ih =>
    intro st
    have hstep := update_get_stable b st d hd
    have hrec := ih (update b st).1
    constructor
    · show (runOps (runOp st (Op.update b)) (rest.map Op.update)).target.get d = _
      rw [show runOp st (Op.update b) = (update b st).1 from rfl, hrec.1, hstep.1]
    · show (runOps (runOp st (Op.update b)) (rest.map Op.update)).current.get d = _
      rw [show runOp st (Op.update b) = (update b st).1 from rfl, hrec.2, hstep.1, hstep.2]
      rw [List.length_cons, iterLerp_succ_front]

/-- C7 (amended): for the dimensions whose target `update` leaves alone
(valence, confidence, curiosity), the claim holds: under repeated `update`
calls with no nudges the target stays fixed, `current` approaches it
monotonically, never crosses to the other side, and is within the 0.001
stopping threshold after at most 18 calls whenever the initial gap is at most
the width 2 of the widest interval.  (For arousal, social and energy the
homeostatic tail of `update` moves the target itself and the claim fails — see
the counterexample.) -/
theorem c7_amended (d : Dim)
    (hd : d = .valence ∨ d = .confidence ∨ d = .curiosity)
    (st : MState) (bs : List ℚ)
    (hgap : |st.target.get d - st.current.get d| ≤ 2)
    (hlen : 18 ≤ bs.length) :
    (runOps st (bs.map Op.update)).target.get d = st.target.get d ∧
    (∀ n : Nat,
      |st.target.get d - (runOps st ((bs.take (n + 1)).map Op.update)).current.get d| ≤
      |st.target.get d - (runOps st ((bs.take n).map Op.update)).current.get d|) ∧
    (∀ n : Nat,
      0 ≤ (st.target.get d - st.current.get d) *
        (st.target.get d - (runOps st ((bs.take n).map Op.update)).current.get d)) ∧
    |st.target.get d - (runOps st (bs.map Op.update)).current.get d| ≤ 1/1000 := by
  have hfix := (runOps_update_get_stable d hd bs st).1
  have hcur := (runOps_update_get_stable d hd bs st).2
  refine ⟨hfix, ?_, ?_, ?_⟩
  · intro n
    rw [(runOps_update_get_stable d hd (bs.take (n + 1)) st).2,
        (runOps_update_get_stable d hd (bs.take n) st).2]
    apply iterLerp_gap_anti
    rw [List.length_take, List.length_take]
    exact min_le_min (Nat.le_succ n) (le_refl _)
  · intro n
    rw [(runOps_update_get_stable d hd (bs.take n) st).2]
    obtain ⟨k, hk0, _hk1, hk⟩ := iterLerp_factor (st.target.get d) (st.current.get d) (bs.take n).length
    rw [hk, ← mul_assoc]
    exact mul_nonneg (mul_self_nonneg _) hk0
  · rw [hcur]
    rcases iterLerp_gap_bound (st.target.get d) (st.current.get d) bs.length with hsmall | hgeo
    · exact hsmall
    · calc |st.target.get d - iterLerp (st.target.get d) bs.length (st.current.get d)|
          ≤ (13/20) ^ bs.length * |st.target.get d - st.current.get d| := hgeo
        _ ≤ (13/20) ^ 18 * 2 := by
            apply mul_le_mul (pow_le_pow_of_le_one (by norm_num) (by norm_num) hlen) hgap
              (abs_nonneg _) (by positivity)
        _ ≤ 1/1000 := by norm_num

/-- Witness for `c7_amended`: valence target at -9/10 against current 6/10
(gap 3/2), 18 updates with zero breathing term. -/
theorem c7_witness :
    |c7start.target.get .valence -
      (runOps c7start ((List.replicate 18 (0:ℚ)).map Op.update)).current.get .valence| ≤ 1/1000 :=
  (c7_amended .valence (Or.inl rfl) c7start (List.replicate 18 0)
    (by norm_num [c7start, SelfState.get, SELF_STATE_DEFAULTS, abs_le])
    (by simp)).2.2.2

/-! ## Bus lemmas for C3/C4/C5 -/

/-- `pushHistory` never touches the pending queue. -/
theorem pushHistory_queue (st : BusState) (s : Signal) :
    (pushHistory st s).queue = st.queue := by
  unfold pushHistory
  split_ifs <;> rfl

/-- `pushHistory` never touches the subscriber registry. -/
theorem pushHistory_subs (st : BusState) (s : Signal) :
    (pushHistory st s).subs = st.subs := by
  unfold pushHistory
  split_ifs <;> rfl

/-- `pushHistory` commutes with replacing the pending queue. -/
theorem pushHistory_set_queue (st : BusState) (q : List Signal) (s : Signal) :
    pushHistory { st with queue := q } s = { pushHistory st s with queue := q } := by
  unfold pushHistory
  split_ifs <;> rfl

/-- With silent handlers, delivering one signal does not change the bus state
and logs exactly the matching subscribers. -/
theorem deliverToSubs_silent (now : Int) (s : Signal) :
    ∀ (subs : List Subscription) (st : BusState), SilentSubs subs →
      deliverToSubs now s subs st =
        (st, (subs.filter (fun sub => matchesSub sub s)).map (fun sub => (sub.engineId, s))) := by
  intro subs
  induction subs with
  | nil => intro st _; rfl
  | cons sub rest ih =>
    intro st hsil
    have hh : sub.handler s = [] := hsil sub (by simp) s
    have hrest : SilentSubs rest := fun f hf t => hsil f (by simp [hf]) t
    cases hm : matchesSub sub s with
    | true =>
      simp [deliverToSubs, hm, hh, ih st hrest, List.filter_cons]
    | false =>
      simp [deliverToSubs, hm, ih st hrest, List.filter_cons]

/-- With silent handlers and enough fuel, the drain loop processes exactly the
queue it starts with, in order: the final state has an empty queue and the
queue folded into the history ring, the processed list is the starting queue,
and the delivery log pairs each queued signal with its matching
subscribers. -/
theorem flushLoop_silent (now : Int) :
    ∀ (q : List Signal) (fuel : Nat) (st : BusState)
      (accP : List Signal) (accD : List (String × Signal)),
      st.queue = q → SilentSubs st.subs → q.length ≤ fuel →
      flushLoop now fuel st accP accD =
        ⟨q.foldl pushHistory { st with queue := [] },
         accP.reverse ++ q,
         accD.reverse ++ q.bind
           (fun s => (st.subs.filter (fun sub => matchesSub sub s)).map
             (fun sub => (sub.engineId, s))),
         true⟩ := by
  intro q
  induction q with
  | nil =>
    intro fuel st accP accD hq _hsil _hfuel
    rw [flushLoop_nil now fuel st accP accD hq]
    cases st with
    | mk stq subs hist hidx nid =>
      simp only at hq
      subst hq
      simp
  | cons s rest ih =>
    intro fuel st accP accD hq hsil hfuel
    cases fuel with
    | zero => simp at hfuel
    | succ n =>
      rw [flushLoop_succ_cons now n st accP accD s rest hq]
      rw [deliverToSubs_silent now s st.subs _ hsil]
      have hq2 : (pushHistory { st with queue := rest } s).queue = rest := by
        rw [pushHistory_queue]
      have hsubs2 : (pushHistory { st with queue := rest } s).subs = st.subs := by
        rw [pushHistory_subs]
      have hsil2 : SilentSubs (pushHistory { st with queue := rest } s).subs := by
        rw [hsubs2]; exact hsil
      have hfuel2 : rest.length ≤ n := by
        simpa using hfuel
      rw [ih n _ (s :: accP) _ hq2 hsil2 hfuel2]
      have hst : ({ pushHistory { st with queue := rest } s with queue := [] } : BusState) =
          pushHistory { st with queue := [] } s := by
        cases st with
        | mk stq subs hist hidx nid =>
          unfold pushHistory
          split_ifs <;> rfl
      rw [hst, hsubs2]
      simp [List.append_assoc]

/-- `SignalBus.flush` with silent handlers: drop the expired signals, then
process the surviving queue front to back. -/
theorem flush_silent (now : Int) (fuel : Nat) (st : BusState)
    (hsil : SilentSubs st.subs)
    (hfuel : (st.queue.filter (fun s => now - s.timestamp < s.ttl)).length ≤ fuel) :
    flush now fuel st =
      ⟨(st.queue.filter (fun s => now - s.timestamp < s.ttl)).foldl pushHistory
         { st with queue := [] },
       st.queue.filter (fun s => now - s.timestamp < s.ttl),
       (st.queue.filter (fun s => now - s.timestamp < s.ttl)).bind
         (fun s => (st.subs.filter (fun sub => matchesSub sub s)).map
           (fun sub => (sub.engineId, s))),
       true⟩ := by
  unfold flush
  rw [flushLoop_silent now (st.queue.filter (fun s => now - s.timestamp < s.ttl)) fuel
      { st with queue := st.queue.filter (fun s => now - s.timestamp < s.ttl) } [] []
      rfl hsil hfuel]
  simp

/-- `emit` (and hence `emitAll`) never touches the subscriber registry. -/
theorem emitAll_subs (now : Int) :
    ∀ (reqs : List EmitReq) (st : BusState), (emitAll now reqs st).subs = st.subs := by
  intro reqs
  induction reqs with
  | nil => intro st; rfl
  | cons r rest ih => intro st; exact ih _

/-- C7: the claim quantifies over every dimension, but for social (and arousal
and energy) `update` itself drifts the target, so "current monotonically
approaches target without ever overshooting" fails on the code: from a state
with the social target 0.0015 above current, `update` calls alone (no nudges)
first move current up toward the target, yet after six calls the drifting
target has crossed below current — current ends up on the far side of the
target. -/
theorem c7_counterexample :
    c7cross.current.social < c7cross.target.social ∧
    c7cross.current.social < (runOps c7cross [Op.update 0]).current.social ∧
    (runOps c7cross (List.replicate 5 (Op.update 0))).current.social <
      (runOps c7cross (List.replicate 5 (Op.update 0))).target.social ∧
    (runOps c7cross (List.replicate 6 (Op.update 0))).target.social <
      (runOps c7cross (List.replicate 6 (Op.update 0))).current.social := by
  refine ⟨by norm_num [c7cross, SELF_STATE_DEFAULTS], ?_, ?_, ?_⟩ <;>
    norm_num [runOps, runOp, update, updateCurrent, updateTarget, lerpDim, lt_abs,
      c7cross, SELF_STATE_DEFAULTS, STATE_DAMPING, min_def, max_def, List.replicate,
      List.foldl]

/-! ## C3 — stable descending-priority delivery -/

/-- The sorted insertion of `emit` produces a permutation of consing. -/
theorem insertByPriority_perm (x : Signal) :
    ∀ q : List Signal, List.Perm (insertByPriority x q) (x :: q) := by
  intro q
  induction q with
  | nil => exact List.Perm.refl _
  | cons y ys ih =>
    unfold insertByPriority
    split_ifs with h
    · exact List.Perm.refl _
    · exact (ih.cons y).trans (List.Perm.swap x y ys)

/-- The sorted insertion of `emit` preserves the descending-priority
invariant of the pending queue. -/
theorem insertByPriority_pairwise (x : Signal) :
    ∀ q : List Signal, q.Pairwise (fun a b => b.priority ≤ a.priority) →
      (insertByPriority x q).Pairwise (fun a b => b.priority ≤ a.priority) := by
  intro q
  induction q with
  | nil => intro _; simp [insertByPriority]
  | cons y ys ih =>
    intro hq
    rw [List.pairwise_cons] at hq
    unfold insertByPriority
    split_ifs with h
    · rw [List.pairwise_cons]
      refine ⟨?_, List.pairwise_cons.mpr hq⟩
      intro z hz
      rcases List.mem_cons.mp hz with rfl | hzys
      · exact le_of_lt h
      · exact le_trans (hq.1 z hzys) (le_of_lt h)
    · rw [List.pairwise_cons]
      refine ⟨?_, ih hq.2⟩
      intro z hz
      have hz2 : z ∈ x :: ys := (insertByPriority_perm x ys).mem_iff.mp hz
      rcases List.mem_cons.mp hz2 with rfl | hzys
      · exact not_lt.mp h
      · exact hq.1 z hzys

/-- On a descending-priority queue, the sorted insertion of `emit` places the
new signal after every queued signal of its own priority class: stability of
the FIFO order among equal priorities. -/
theorem insertByPriority_filter (x : Signal) (p : Int) :
    ∀ q : List Signal, q.Pairwise (fun a b => b.priority ≤ a.priority) →
      (insertByPriority x q).filter (fun s => s.priority = p) =
        (if x.priority = p
         then q.filter (fun s => s.priority = p) ++ [x]
         else q.filter (fun s => s.priority = p)) := by
  intro q
  induction q with
  | nil =>
    intro _
    show List.filter _ [x] = _
    by_cases hxp : x.priority = p
    · simp [List.filter_cons, hxp]
    · simp [List.filter_cons, hxp]
  | cons y ys ih =>
    intro hq
    rw [List.pairwise_cons] at hq
    by_cases hyx : y.priority < x.priority
    · have hins : insertByPriority x (y :: ys) = x :: y :: ys := by
        conv_lhs => unfold insertByPriority
        rw [if_pos hyx]
      rw [hins]
      by_cases hxp : x.priority = p
      · have hnil : (y :: ys).filter (fun s => decide (s.priority = p)) = [] := by
          apply List.filter_eq_nil.mpr
          intro z hz
          simp only [decide_eq_true_eq]
          rcases List.mem_cons.mp hz with rfl | hzys
          · omega
          · have := hq.1 z hzys
            omega
        rw [List.filter_cons, if_pos (by simp [hxp]), if_pos hxp, hnil]
        rfl
      · rw [List.filter_cons, if_neg (by simp [hxp]), if_neg hxp]
    · have hins : insertByPriority x (y :: ys) = y :: insertByPriority x ys := by
        conv_lhs => unfold insertByPriority
        rw [if_neg hyx]
      rw [hins, List.filter_cons, List.filter_cons, ih hq.2]
      by_cases hxp : x.priority = p <;> by_cases hyp : y.priority = p <;>
        simp [hxp, hyp]

/-- Folding `emit` over a batch of requests: the resulting pending queue is a
permutation of the emissions appended to the old queue, keeps the
descending-priority invariant, and preserves the emission order within each
priority class. -/
theorem emitAll_queue (now : Int) :
    ∀ (reqs : List EmitReq) (st : BusState),
      st.queue.Pairwise (fun a b => b.priority ≤ a.priority) →
      List.Perm (emitAll now reqs st).queue
        (st.queue ++ emittedSignals now st.nextId reqs) ∧
      (emitAll now reqs st).queue.Pairwise (fun a b => b.priority ≤ a.priority) ∧
      ∀ p : Int, (emitAll now reqs st).queue.filter (fun s => s.priority = p) =
        st.queue.filter (fun s => s.priority = p) ++
          (emittedSignals now st.nextId reqs).filter (fun s => s.priority = p) := by
  intro reqs
  induction reqs with
  | nil =>
    intro st hst
    exact ⟨by simp [emitAll, emittedSignals], hst, by simp [emitAll, emittedSignals]⟩
  | cons r rs ih =>
    intro st hst
    have hq1 : (emitAll now (r :: rs) st) = emitAll now rs (emit now r st).1 := rfl
    have hqueue1 : (emit now r st).1.queue =
        insertByPriority (fullSignal now st.nextId r) st.queue := rfl
    have hnid1 : (emit now r st).1.nextId = nextIdAfter st.nextId r := rfl
    have hpw1 : (emit now r st).1.queue.Pairwise (fun a b => b.priority ≤ a.priority) := by
      rw [hqueue1]
      exact insertByPriority_pairwise _ _ hst
    obtain ⟨hperm, hpw, hfil⟩ := ih (emit now r st).1 hpw1
    have hemit : emittedSignals now st.nextId (r :: rs) =
        fullSignal now st.nextId r :: emittedSignals now (nextIdAfter st.nextId r) rs := rfl
    refine ⟨?_, by rw [hq1]; exact hpw, ?_⟩
    · rw [hq1, hemit]
      rw [hqueue1, hnid1] at hperm
      have h2 : List.Perm
          (insertByPriority (fullSignal now st.nextId r) st.queue ++
            emittedSignals now (nextIdAfter st.nextId r) rs)
          ((fullSignal now st.nextId r :: st.queue) ++
            emittedSignals now (nextIdAfter st.nextId r) rs) :=
        (insertByPriority_perm _ _).append_right _
      exact (hperm.trans h2).trans List.perm_middle.symm
    · intro p
      rw [hq1, hemit]
      have hstep := insertByPriority_filter (fullSignal now st.nextId r) p st.queue hst
      rw [hfil p, hqueue1, hnid1, hstep, List.filter_cons]
      by_cases hxp : (fullSignal now st.nextId r).priority = p
      · rw [if_pos hxp, if_pos (by simp [hxp])]
        simp [List.append_assoc]
      · rw [if_neg hxp, if_neg (by simp [hxp])]

/-- Signals emitted with no timestamp/ttl override carry `timestamp = now` and
the default ttl. -/
theorem emittedSignals_fresh (now : Int) :
    ∀ (reqs : List EmitReq) (nid : Nat),
      (∀ r ∈ reqs, r.reqTimestamp = none ∧ r.reqTtl = none) →
      ∀ s ∈ emittedSignals now nid reqs, s.timestamp = now ∧ s.ttl = SIGNAL_TTL := by
  intro reqs
  induction reqs with
  | nil => intro nid _ s hs; simp [emittedSignals] at hs
  | cons r rs ih =>
    intro nid hfresh s hs
    rcases List.mem_cons.mp hs with rfl | htail
    · have hr := hfresh r (by simp)
      constructor
      · show (r.reqTimestamp.getD now) = now
        rw [hr.1]
        rfl
      · show (r.reqTtl.getD SIGNAL_TTL) = SIGNAL_TTL
        rw [hr.2]
        rfl
    · exact ih _ (fun r2 h2 => hfresh r2 (by simp [h2])) s htail

/-- C3: emitting any batch of requests (mixed priorities, no timestamp/ttl
overrides) and flushing once with non-emitting subscribers delivers a
permutation of the emitted signals, in non-increasing priority order, with
every priority class kept in emission order (stable FIFO tie-break); on the
spec's example — emit (p=10,"a"), (p=50,"b"), (p=10,"c") — the flush order is
b, a, c. -/
theorem c3_priority_order (subs : List Subscription) (now : Int) (reqs : List EmitReq)
    (hsilent : SilentSubs subs)
    (hfresh : ∀ r ∈ reqs, r.reqTimestamp = none ∧ r.reqTtl = none) :
    List.Perm (emitThenFlush now subs reqs).processed (emittedSignals now 0 reqs) ∧
    (emitThenFlush now subs reqs).processed.Pairwise (fun a b => b.priority ≤ a.priority) ∧
    (∀ p : Int, (emitThenFlush now subs reqs).processed.filter (fun s => s.priority = p) =
      (emittedSignals now 0 reqs).filter (fun s => s.priority = p)) ∧
    (emitThenFlush 0 [] [reqA, reqB, reqC]).processed.map (fun s => (s.priority, s.stype)) =
      [(50, "b"), (10, "a"), (10, "c")] := by
  have hmk : (mkBus subs).queue.Pairwise (fun a b => b.priority ≤ a.priority) := by
    simp [mkBus]
  obtain ⟨hperm, hpw, hfil⟩ := emitAll_queue now reqs (mkBus subs) hmk
  have hperm2 : List.Perm (emitAll now reqs (mkBus subs)).queue (emittedSignals now 0 reqs) := by
    simpa [mkBus] using hperm
  have hfil2 : ∀ p : Int, (emitAll now reqs (mkBus subs)).queue.filter (fun s => s.priority = p) =
      (emittedSignals now 0 reqs).filter (fun s => s.priority = p) := by
    intro p
    simpa [mkBus] using hfil p
  have hkeep : (emitAll now reqs (mkBus subs)).queue.filter
      (fun s => now - s.timestamp < s.ttl) = (emitAll now reqs (mkBus subs)).queue := by
    apply List.filter_eq_self.mpr
    intro s hs
    have hmem : s ∈ emittedSignals now 0 reqs := hperm2.mem_iff.mp hs
    obtain ⟨hts, httl⟩ := emittedSignals_fresh now reqs 0 hfresh s hmem
    simp only [hts, httl, SIGNAL_TTL, decide_eq_true_eq]
    omega
  have hsil2 : SilentSubs (emitAll now reqs (mkBus subs)).subs := by
    rw [emitAll_subs]
    exact hsilent
  have hfl := flush_silent now (emitAll now reqs (mkBus subs)).queue.length
    (emitAll now reqs (mkBus subs)) hsil2 (by rw [hkeep])
  have hproc : (emitThenFlush now subs reqs).processed = (emitAll now reqs (mkBus subs)).queue := by
    unfold emitThenFlush
    rw [hfl, hkeep]
  refine ⟨?_, ?_, ?_, by decide⟩
  · rw [hproc]
    exact hperm2
  · rw [hproc]
    exact hpw
  · intro p
    rw [hproc]
    exact hfil2 p

/-- Witness for `c3_priority_order`: the spec's own three-signal example. -/
theorem c3_witness :
    List.Perm (emitThenFlush 0 [] [reqA, reqB, reqC]).processed
      (emittedSignals 0 0 [reqA, reqB, reqC]) :=
  (c3_priority_order [] 0 [reqA, reqB, reqC]
    (fun sub h => absurd h (List.not_mem_nil sub))
    (by decide)).1

/-! ## C4 — silent TTL expiry -/

/-- Everything in the history after a flush's ring-buffer insertions was
either already there or was one of the signals processed by this flush. -/
theorem foldl_pushHistory_mem (x : Signal) :
    ∀ (L : List Signal) (st0 : BusState),
      x ∈ (L.foldl pushHistory st0).history → x ∈ st0.history ∨ x ∈ L := by
  intro L
  induction L with
  | nil => intro st0 h; exact Or.inl h
  | cons a L ih =>
    intro st0 h
    rcases ih (pushHistory st0 a) h with hmem | hL
    · unfold pushHistory at hmem
      split_ifs at hmem with hlen
      · rcases List.mem_append.mp hmem with h0 | h1
        · exact Or.inl h0
        · simp only [List.mem_singleton] at h1
          subst h1
          exact Or.inr (by simp)
      · rcases List.mem_or_eq_of_mem_set hmem with h0 | h1
        · exact Or.inl h0
        · subst h1
          exact Or.inr (by simp)
    · exact Or.inr (by simp [hL])

/-- C4: a pending signal whose age has reached its ttl when `flush` runs is
silently dropped — the flush completes normally (no error path exists), the
signal is not in the returned processed list, it is delivered to no
subscriber, and it is not added to the history ring buffer. -/
theorem c4_ttl_drop (now : Int) (fuel : Nat) (st : BusState) (s : Signal)
    (hsil : SilentSubs st.subs)
    (hmem : s ∈ st.queue)
    (hexp : s.ttl ≤ now - s.timestamp)
    (hfuel : st.queue.length ≤ fuel) :
    (flush now fuel st).completed = true ∧
    s ∉ (flush now fuel st).processed ∧
    (∀ d ∈ (flush now fuel st).deliveries, d.2 ≠ s) ∧
    (s ∈ (flush now fuel st).state.history → s ∈ st.history) := by
  have hfuel2 : (st.queue.filter (fun t => now - t.timestamp < t.ttl)).length ≤ fuel :=
    le_trans (List.length_filter_le _ _) hfuel
  have hfl := flush_silent now fuel st hsil hfuel2
  have hsmem : s ∉ st.queue.filter (fun t => now - t.timestamp < t.ttl) := by
    intro hcontra
    have := (List.mem_filter.mp hcontra).2
    simp only [decide_eq_true_eq] at this
    omega
  refine ⟨by rw [hfl], ?_, ?_, ?_⟩
  · rw [hfl]
    exact hsmem
  · rw [hfl]
    intro d hd
    rcases List.mem_bind.mp hd with ⟨t, ht, hdt⟩
    rcases List.mem_map.mp hdt with ⟨sub, _hsub, rfl⟩
    intro hds
    simp only at hds
    exact hsmem (hds ▸ ht)
  · rw [hfl]
    intro hh
    rcases foldl_pushHistory_mem s _ _ hh with h0 | h1
    · exact h0
    · exact absurd h1 hsmem

/-- Witness for `c4_ttl_drop`: a signal with `ttl = 100` emitted at time 0 and
flushed at time 150, with a broadcast subscriber live. -/
theorem c4_witness :
    (flush 150 1 c4bus).completed = true ∧ expiredSig ∉ (flush 150 1 c4bus).processed :=
  ⟨(c4_ttl_drop 150 1 c4bus expiredSig
      (by
        intro sub h t
        simp only [c4bus, List.mem_singleton] at h
        subst h
        rfl)
      (by decide) (by decide) (by decide)).1,
   (c4_ttl_drop 150 1 c4bus expiredSig
      (by
        intro sub h t
        simp only [c4bus, List.mem_singleton] at h
        subst h
        rfl)
      (by decide) (by decide) (by decide)).2.1⟩

/-! ## C5 — history ring buffer -/

set_option maxRecDepth 100000 in
set_option maxHeartbeats 2000000 in
/-- C5: after emitting and flushing `N + 5 = 205` equal-priority signals with
the ring capacity `N = SIGNAL_HISTORY_SIZE = 200`, `getHistory()` returns
exactly 200 entries, they are the most recent 200 flushed signals in emission
order (the first five emissions have been overwritten), oldest first across
the internal wrap position, and the flush processed all 205 in emission
order. -/
theorem c5_history_ring :
    (getHistory c5flush.state).length = 200 ∧
    getHistory c5flush.state = (emittedSignals 0 0 c5reqs).drop 5 ∧
    c5flush.processed = emittedSignals 0 0 c5reqs := by
  decide

end AliveCore
